import Mathlib

/-!
Verification of the session-coordination layer of a two-player chess
service (the GameManager class): create/join/move handlers over a
key-value record store, with an abstract rules adapter standing for the
external chess engine.  Handlers are embedded as pure functions from the
loaded state to the persisted record and the list of frames sent to
connected peers.
-/

/-- Side to move, as reported by the rules engine (board.turn()). -/
inductive Side where
  | w
  | b
deriving DecidableEq, Repr

/-- Game status field of a stored record. -/
inductive Status where
  | waiting
  | inprogress
  | complete
deriving DecidableEq, Repr

/-- Winner field of a stored record (null modelled as Option none). -/
inductive Winner where
  | white
  | black
  | draw
deriving DecidableEq, Repr

/-- A move payload {from, to} as received over the wire. -/
structure MoveFT where
  fromSq : String
  toSq : String
deriving DecidableEq, Repr

/-- The GameState record persisted in the KV store (types.ts). -/
structure GameState where
  gameId : String
  player1Id : String
  player2Id : Option String
  fen : String
  moves : List String
  status : Status
  winner : Option Winner
  createdAt : Nat
deriving DecidableEq, Repr

/-- The rules adapter interface: what the coordinator consumes from the
external chess engine (chess.js).  move applies a {from,to} move to a
position and returns the new position together with the standard
algebraic name of the applied move, or none when illegal; moveSan applies
a move given by its algebraic name (used only to state the replay
property). -/
structure Rules where
  initialFen : String
  turn : String → Side
  move : String → MoveFT → Option (String × String)
  moveSan : String → String → Option String
  isGameOver : String → Bool
  isCheckmate : String → Bool

/-- An outbound frame, by type and payload. -/
inductive Frame where
  | gameCreated (gameId : String)
  | initGame (color : String) (gameId : String)
  | moveFrame (mv : MoveFT)
  | gameOver (winner : Option Winner)
  | error (message : String)
deriving DecidableEq, Repr

/-- Dispatch of one frame to one peer: emitted only when the peer has a
live connection (the sockets.get(pid)?.send pattern); silently dropped
otherwise. -/
def sendTo (sockets : String → Bool) (pid : String) (f : Frame) :
    List (String × Frame) :=
  if sockets pid then [(pid, f)] else []

/-- Result of one handler run: the record written to the store (if any)
and the frames sent, in order. -/
structure HandlerResult where
  persist : Option GameState
  sent : List (String × Frame)
deriving DecidableEq, Repr

/-- handleCreateGame: build a fresh waiting record and acknowledge the
creator.  The random gameId and the clock are passed as parameters. -/
def handleCreateGame (R : Rules) (sockets : String → Bool)
    (playerId gameId : String) (now : Nat) : HandlerResult :=
  let newGame : GameState :=
    { gameId := gameId
      player1Id := playerId
      player2Id := none
      fen := R.initialFen
      moves := []
      status := Status.waiting
      winner := none
      createdAt := now }
  { persist := some newGame
    sent := sendTo sockets playerId (Frame.gameCreated gameId) }

/-- handleJoinGame: load the record, reject a missing or unavailable
game with an error frame, otherwise seat the joiner as player 2 and
start the game. -/
def handleJoinGame (_R : Rules) (sockets : String → Bool)
    (kv : String → Option GameState) (playerId gameId : String) :
    HandlerResult :=
  match kv gameId with
  | none =>
      { persist := none
        sent := sendTo sockets playerId (Frame.error "Game not found.") }
  | some game =>
      if game.player2Id ≠ none ∨ game.status ≠ Status.waiting then
        { persist := none
          sent := sendTo sockets playerId
            (Frame.error "Game is not available to join.") }
      else
        let game' := { game with
          player2Id := some playerId
          status := Status.inprogress }
        { persist := some game'
          sent :=
            sendTo sockets game.player1Id (Frame.initGame "white" gameId)
              ++ sendTo sockets playerId (Frame.initGame "black" gameId) }

/-- The identity whose turn it is: white maps to player1Id, black to
player2Id (the ternary on board.turn()). -/
def turnPlayer (R : Rules) (game : GameState) : String :=
  if R.turn game.fen = Side.w then game.player1Id else game.player2Id.getD ""

/-- The winner stored for a terminal position: the side opposite to the
side to move if checkmate, draw otherwise. -/
def matedWinner (R : Rules) (fen : String) : Winner :=
  if R.isCheckmate fen then
    (if R.turn fen = Side.w then Winner.black else Winner.white)
  else Winner.draw

/-- handleMove: load the record, silently abort on any invalid
condition, otherwise apply the move, record the new position and
algebraic name, close the game if terminal, persist, and dispatch. -/
def handleMove (R : Rules) (sockets : String → Bool)
    (kv : String → Option GameState) (playerId gameId : String)
    (mv : MoveFT) : HandlerResult :=
  match kv gameId with
  | none => { persist := none, sent := [] }
  | some game =>
      if game.status ≠ Status.inprogress ∨ game.player2Id = none then
        { persist := none, sent := [] }
      else if playerId ≠ turnPlayer R game then
        { persist := none, sent := [] }
      else
        match R.move game.fen mv with
        | none => { persist := none, sent := [] }
        | some (newFen, san) =>
            let afterMove := { game with
              fen := newFen
              moves := game.moves ++ [san] }
            let game' :=
              if R.isGameOver newFen then
                { afterMove with
                  status := Status.complete
                  winner := some (matedWinner R newFen) }
              else afterMove
            let sent :=
              if game'.status = Status.complete then
                sendTo sockets game.player1Id (Frame.gameOver game'.winner)
                  ++ sendTo sockets (game.player2Id.getD "")
                    (Frame.gameOver game'.winner)
              else
                let opponentId :=
                  if playerId = game.player1Id then game.player2Id.getD ""
                  else game.player1Id
                sendTo sockets opponentId (Frame.moveFrame mv)
            { persist := some game', sent := sent }

/-- Replay a list of algebraic move names from a position via the rules
adapter. -/
def replay (R : Rules) : String → List String → Option String
  | fen, [] => some fen
  | fen, s :: rest =>
      match R.moveSan fen s with
      | none => none
      | some fen' => replay R fen' rest

/-- Coherence of the rules adapter: the algebraic name returned for an
applied move, applied by name to the same position, reproduces the same
resulting position.  This is the defining property of standard algebraic
names and holds for the external engine. -/
def SanFaithful (R : Rules) : Prop :=
  ∀ fen mv fen' s, R.move fen mv = some (fen', s) →
    R.moveSan fen s = some fen'

/-- Records reachable through the handlers: created fresh, or persisted
by a join or a move applied to a reachable loaded record. -/
inductive Reachable (R : Rules) : GameState → Prop where
  | create (sockets : String → Bool) (pid gid : String) (now : Nat)
      (g' : GameState)
      (hp : (handleCreateGame R sockets pid gid now).persist = some g') :
      Reachable R g'
  | join (sockets : String → Bool) (kv : String → Option GameState)
      (pid gid : String) (g g' : GameState)
      (hkv : kv gid = some g) (hg : Reachable R g)
      (hp : (handleJoinGame R sockets kv pid gid).persist = some g') :
      Reachable R g'
  | move (sockets : String → Bool) (kv : String → Option GameState)
      (pid gid : String) (mv : MoveFT) (g g' : GameState)
      (hkv : kv gid = some g) (hg : Reachable R g)
      (hp : (handleMove R sockets kv pid gid mv).persist = some g') :
      Reachable R g'

/-- The opening move e2-e4 as a wire payload, used as a fixture. -/
def e2e4 : MoveFT := { fromSq := "e2", toSq := "e4" }

/-- A mating move payload, used as a fixture. -/
def qh4Mate : MoveFT := { fromSq := "d8", toSq := "h4" }

/-- A tiny concrete rules engine with three positions: start (white to
move), mid (black to move, reached by e2e4), and matepos (terminal
checkmate with white to move, so black delivered mate), used to
instantiate the abstract theorems at concrete inputs. -/
def toyRules : Rules where
  initialFen := "start"
  turn := fun fen => if fen = "mid" then Side.b else Side.w
  move := fun fen mv =>
    if fen = "start" then
      (if mv = e2e4 then some ("mid", "e4") else none)
    else if fen = "mid" then
      (if mv = qh4Mate then some ("matepos", "Qh4#") else none)
    else none
  moveSan := fun fen s =>
    if fen = "start" then
      (if s = "e4" then some "mid" else none)
    else if fen = "mid" then
      (if s = "Qh4#" then some "matepos" else none)
    else none
  isGameOver := fun fen => fen = "matepos"
  isCheckmate := fun fen => fen = "matepos"

theorem toyRules_sanFaithful : SanFaithful toyRules := by
  intro fen mv fen' s h
  simp only [toyRules] at h
  split at h
  · rename_i hfen
    split at h
    · rename_i hmv
      simp only [Option.some.injEq, Prod.mk.injEq] at h
      subst hfen
      rw [← h.1, ← h.2]
      decide
    · exact absurd h (by simp)
  · split at h
    · rename_i hfen2
      split at h
      · rename_i hmv
        simp only [Option.some.injEq, Prod.mk.injEq] at h
        subst hfen2
        rw [← h.1, ← h.2]
        decide
      · exact absurd h (by simp)
    · exact absurd h (by simp)

/-- The record created by player p1 for game G at time 0. -/
def gWaiting : GameState :=
  { gameId := "G"
    player1Id := "p1"
    player2Id := none
    fen := "start"
    moves := []
    status := Status.waiting
    winner := none
    createdAt := 0 }

/-- gWaiting after p2 joined. -/
def gInProgress : GameState :=
  { gWaiting with player2Id := some "p2", status := Status.inprogress }

/-- gInProgress after the accepted move e2e4. -/
def gAfterE4 : GameState :=
  { gInProgress with fen := "mid", moves := ["e4"] }

/-- A KV store holding exactly one record under key G. -/
def kvOf (g : GameState) : String → Option GameState :=
  fun k => if k = "G" then some g else none

/-- Every peer connected. -/
def allOn : String → Bool := fun _ => true

theorem reachable_gWaiting : Reachable toyRules gWaiting :=
  Reachable.create allOn "p1" "G" 0 gWaiting (by decide)

theorem reachable_gInProgress : Reachable toyRules gInProgress :=
  Reachable.join allOn (kvOf gWaiting) "p2" "G" gWaiting gInProgress
    (by decide) reachable_gWaiting (by decide)

theorem reachable_gAfterE4 : Reachable toyRules gAfterE4 :=
  Reachable.move allOn (kvOf gInProgress) "p1" "G" e2e4 gInProgress gAfterE4
    (by decide) reachable_gInProgress (by decide)

/-- gWaiting joined by its own creator (the C10 degenerate game). -/
def gSelfJoined : GameState :=
  { gWaiting with player2Id := some "p1", status := Status.inprogress }

/-- C4: a Move on an in-progress game whose sender is not the identity
mapped from the side to move (white to player1Id, black to player2Id)
aborts silently: nothing is persisted and no frame is sent to any
connection. -/
theorem moveOutOfTurn_silent (R : Rules) (sockets : String → Bool)
    (kv : String → Option GameState) (pid gid : String) (mv : MoveFT)
    (g : GameState) (hkv : kv gid = some g)
    (hst : g.status = Status.inprogress) (hp2 : g.player2Id ≠ none)
    (hturn : pid ≠ turnPlayer R g) :
    handleMove R sockets kv pid gid mv = { persist := none, sent := [] } := by
  simp only [handleMove, hkv]
  rw [if_neg (by push_neg; exact ⟨hst, hp2⟩), if_pos hturn]

theorem moveOutOfTurn_silent_witness :
    handleMove toyRules allOn (kvOf gInProgress) "p2" "G" e2e4 =
      { persist := none, sent := [] } :=
  moveOutOfTurn_silent toyRules allOn (kvOf gInProgress) "p2" "G" e2e4
    gInProgress (by decide) (by decide) (by decide) (by decide)

/-- C5: a Move carrying a move the rules adapter rejects as illegal in
the current position aborts silently: nothing is persisted and no frame
of any kind is sent. -/
theorem moveIllegal_silent (R : Rules) (sockets : String → Bool)
    (kv : String → Option GameState) (pid gid : String) (mv : MoveFT)
    (g : GameState) (hkv : kv gid = some g)
    (hst : g.status = Status.inprogress) (hp2 : g.player2Id ≠ none)
    (hturn : pid = turnPlayer R g)
    (hmv : R.move g.fen mv = none) :
    handleMove R sockets kv pid gid mv = { persist := none, sent := [] } := by
  simp only [handleMove, hkv]
  rw [if_neg (by push_neg; exact ⟨hst, hp2⟩), if_neg (not_not_intro hturn)]
  simp only [hmv]

theorem moveIllegal_silent_witness :
    handleMove toyRules allOn (kvOf gInProgress) "p1" "G" qh4Mate =
      { persist := none, sent := [] } :=
  moveIllegal_silent toyRules allOn (kvOf gInProgress) "p1" "G" qh4Mate
    gInProgress (by decide) (by decide) (by decide) (by decide) (by decide)

/-- C6 (amended): a JoinGame for a missing gameId sends exactly one
error frame with message "Game not found." to the sender, and a JoinGame
for a record with player2Id set or status not waiting sends exactly one
error frame with message "Game is not available to join." to the sender;
in both cases nothing is persisted and no other frame is sent.  The
messages carry a trailing period, unlike the claim text. -/
theorem joinGame_error_frames (R : Rules) (sockets : String → Bool)
    (kv : String → Option GameState) (pid gid : String) (g : GameState)
    (hconn : sockets pid = true) :
    (kv gid = none →
      handleJoinGame R sockets kv pid gid =
        { persist := none
          sent := [(pid, Frame.error "Game not found.")] }) ∧
    (kv gid = some g →
      (g.player2Id ≠ none ∨ g.status ≠ Status.waiting) →
      handleJoinGame R sockets kv pid gid =
        { persist := none
          sent := [(pid, Frame.error "Game is not available to join.")] }) := by
  constructor
  · intro hkv
    simp [handleJoinGame, hkv, sendTo, hconn]
  · intro hkv hguard
    simp only [handleJoinGame, hkv]
    rw [if_pos hguard]
    simp [sendTo, hconn]

theorem joinGame_error_frames_witness :
    handleJoinGame toyRules allOn (fun _ => none) "p1" "G" =
      { persist := none
        sent := [("p1", Frame.error "Game not found.")] } ∧
    handleJoinGame toyRules allOn (kvOf gInProgress) "p1" "G" =
      { persist := none
        sent := [("p1", Frame.error "Game is not available to join.")] } :=
  ⟨(joinGame_error_frames toyRules allOn (fun _ => none) "p1" "G"
      gInProgress (by decide)).1 rfl,
   (joinGame_error_frames toyRules allOn (kvOf gInProgress) "p1" "G"
      gInProgress (by decide)).2 (by decide) (by decide)⟩

/-- C6 counterexample: the error frames actually emitted carry a
trailing period, so at these concrete inputs no frame with the exact
message "Game not found" or "Game is not available to join" is sent. -/
theorem joinGame_error_message_period :
    (handleJoinGame toyRules allOn (fun _ => none) "p1" "G").sent =
      [("p1", Frame.error "Game not found.")] ∧
    (handleJoinGame toyRules allOn (kvOf gInProgress) "p1" "G").sent =
      [("p1", Frame.error "Game is not available to join.")] ∧
    Frame.error "Game not found." ≠ Frame.error "Game not found" ∧
    Frame.error "Game is not available to join." ≠
      Frame.error "Game is not available to join" := by
  exact ⟨by decide, by decide, by decide, by decide⟩

/-- C7: a JoinGame on an existing waiting record with no second player
seats the sender as player2Id, sets status to inprogress, persists, and
sends init_game white to player1Id and init_game black to the joiner,
each dispatch silently skipped when that peer is disconnected. -/
theorem joinGame_success (R : Rules) (sockets : String → Bool)
    (kv : String → Option GameState) (pid gid : String) (g : GameState)
    (hkv : kv gid = some g) (hp2 : g.player2Id = none)
    (hst : g.status = Status.waiting) :
    handleJoinGame R sockets kv pid gid =
      { persist := some { g with player2Id := some pid
                                 status := Status.inprogress }
        sent := sendTo sockets g.player1Id (Frame.initGame "white" gid)
             ++ sendTo sockets pid (Frame.initGame "black" gid) } := by
  simp only [handleJoinGame, hkv]
  rw [if_neg (by push_neg; exact ⟨hp2, hst⟩)]

theorem joinGame_success_witness :
    handleJoinGame toyRules allOn (kvOf gWaiting) "p2" "G" =
      { persist := some gInProgress
        sent := sendTo allOn "p1" (Frame.initGame "white" "G")
             ++ sendTo allOn "p2" (Frame.initGame "black" "G") } :=
  joinGame_success toyRules allOn (kvOf gWaiting) "p2" "G" gWaiting
    (by decide) (by decide) (by decide)

/-- C9: status is monotonic along waiting to inprogress to complete:
handleJoinGame persists only a waiting record moved to inprogress,
handleMove persists only from an inprogress record, leaving it
inprogress or moving it to complete, and handleCreateGame persists only
fresh waiting records; no handler moves status backwards or skips a
state relative to the record it loaded. -/
theorem status_monotonic (R : Rules) (sockets : String → Bool)
    (kv : String → Option GameState) (pid gid : String) (mv : MoveFT)
    (g g' : GameState) (hkv : kv gid = some g) :
    ((handleJoinGame R sockets kv pid gid).persist = some g' →
      g.status = Status.waiting ∧ g'.status = Status.inprogress) ∧
    ((handleMove R sockets kv pid gid mv).persist = some g' →
      g.status = Status.inprogress ∧
      (g'.status = Status.inprogress ∨ g'.status = Status.complete)) ∧
    (∀ now : Nat,
      (handleCreateGame R sockets pid gid now).persist = some g' →
      g'.status = Status.waiting) := by
  refine ⟨?_, ?_, ?_⟩
  · intro hp
    simp only [handleJoinGame, hkv] at hp
    split at hp
    · simp at hp
    · rename_i hguard
      push_neg at hguard
      simp only [Option.some.injEq] at hp
      subst hp
      exact ⟨hguard.2, rfl⟩
  · intro hp
    simp only [handleMove, hkv] at hp
    split at hp
    · simp at hp
    · rename_i hguard
      push_neg at hguard
      split at hp
      · simp at hp
      · split at hp
        · simp at hp
        · simp only [Option.some.injEq] at hp
          subst hp
          refine ⟨hguard.1, ?_⟩
          split
          · exact Or.inr rfl
          · exact Or.inl hguard.1
  · intro now hp
    simp only [handleCreateGame, Option.some.injEq] at hp
    subst hp
    rfl

theorem status_monotonic_witness :
    (gWaiting.status = Status.waiting ∧
      gInProgress.status = Status.inprogress) ∧
    (gInProgress.status = Status.inprogress ∧
      (gAfterE4.status = Status.inprogress ∨
        gAfterE4.status = Status.complete)) ∧
    gWaiting.status = Status.waiting :=
  ⟨(status_monotonic toyRules allOn (kvOf gWaiting) "p2" "G" e2e4
      gWaiting gInProgress (by decide)).1 (by decide),
   (status_monotonic toyRules allOn (kvOf gInProgress) "p1" "G" e2e4
      gInProgress gAfterE4 (by decide)).2.1 (by decide),
   (status_monotonic toyRules allOn (kvOf gWaiting) "p1" "G" e2e4
      gWaiting gWaiting (by decide)).2.2 0 (by decide)⟩

/-- C10: handleJoinGame never compares the joiner with player1Id, so the
creator can join its own waiting game, yielding a persisted in-progress
record with player1Id equal to player2Id; in that record the turn
mapping used by handleMove resolves to that single identity whatever the
position, so that one connection is the accepted sender of every
move. -/
theorem selfJoin_accepted (R : Rules) (sockets : String → Bool)
    (kv : String → Option GameState) (gid fen : String) (g : GameState)
    (hkv : kv gid = some g) (hp2 : g.player2Id = none)
    (hst : g.status = Status.waiting) :
    (handleJoinGame R sockets kv g.player1Id gid).persist =
      some { g with player2Id := some g.player1Id
                    status := Status.inprogress } ∧
    turnPlayer R { g with player2Id := some g.player1Id
                          status := Status.inprogress
                          fen := fen } = g.player1Id := by
  constructor
  · simp only [handleJoinGame, hkv]
    rw [if_neg (by push_neg; exact ⟨hp2, hst⟩)]
  · simp only [turnPlayer]
    split
    · rfl
    · rfl

theorem selfJoin_accepted_witness :
    ((handleJoinGame toyRules allOn (kvOf gWaiting) "p1" "G").persist =
      some gSelfJoined ∧
      turnPlayer toyRules { gWaiting with player2Id := some "p1"
                                          status := Status.inprogress
                                          fen := "start" } = "p1") ∧
    turnPlayer toyRules { gWaiting with player2Id := some "p1"
                                        status := Status.inprogress
                                        fen := "mid" } = "p1" :=
  ⟨selfJoin_accepted toyRules allOn (kvOf gWaiting) "G" "start" gWaiting
      (by decide) (by decide) (by decide),
   (selfJoin_accepted toyRules allOn (kvOf gWaiting) "G" "mid" gWaiting
      (by decide) (by decide) (by decide)).2⟩

/-- C8 counterexample: in the self-joined game of C10 the accepted,
non-terminal move e2e4 by p1 is persisted and its move frame is
delivered to the connection of p1, the sender itself, refuting that the
sender never receives a frame. -/
theorem moveFrame_echoed_to_sender :
    (handleMove toyRules allOn (kvOf gSelfJoined) "p1" "G" e2e4).persist =
      some { gSelfJoined with fen := "mid", moves := ["e4"] } ∧
    (handleMove toyRules allOn (kvOf gSelfJoined) "p1" "G" e2e4).sent =
      [("p1", Frame.moveFrame e2e4)] := by
  exact ⟨by decide, by decide⟩

/-- C8 (amended): an accepted move with a non-terminal result updates
the position, appends the algebraic name, persists, and forwards exactly
one move frame with the received payload to the connection of the
opposite role (player2Id if the sender is player1Id, else player1Id);
when the two player identities are distinct that recipient is not the
sender, so the sender receives no frame. -/
theorem moveForwarded_opponent (R : Rules) (sockets : String → Bool)
    (kv : String → Option GameState) (pid gid : String) (mv : MoveFT)
    (g : GameState) (p2 newFen san : String)
    (hkv : kv gid = some g) (hst : g.status = Status.inprogress)
    (hp2 : g.player2Id = some p2) (hturn : pid = turnPlayer R g)
    (hmv : R.move g.fen mv = some (newFen, san))
    (hover : R.isGameOver newFen = false)
    (hne : g.player1Id ≠ p2)
    (hconn : sockets (if pid = g.player1Id then p2 else g.player1Id) =
      true) :
    (handleMove R sockets kv pid gid mv).persist =
      some { g with fen := newFen, moves := g.moves ++ [san] } ∧
    (handleMove R sockets kv pid gid mv).sent =
      [((if pid = g.player1Id then p2 else g.player1Id),
        Frame.moveFrame mv)] ∧
    (if pid = g.player1Id then p2 else g.player1Id) ≠ pid := by
  have hguard : ¬(g.status ≠ Status.inprogress ∨ g.player2Id = none) := by
    push_neg
    exact ⟨hst, by simp [hp2]⟩
  refine ⟨?_, ?_, ?_⟩
  · simp only [handleMove, hkv]
    rw [if_neg hguard, if_neg (not_not_intro hturn)]
    simp only [hmv, hover]
    simp [hst]
  · simp only [handleMove, hkv]
    rw [if_neg hguard, if_neg (not_not_intro hturn)]
    simp only [hmv, hover]
    simp only [if_false, Bool.false_eq_true]
    rw [if_neg (by simp [hst])]
    simp [hp2, sendTo, hconn]
  · split
    · rename_i hpid
      rw [hpid]
      exact fun h => hne h.symm
    · rename_i hpid
      exact fun h => hpid h.symm

theorem moveForwarded_opponent_witness :
    (handleMove toyRules allOn (kvOf gInProgress) "p1" "G" e2e4).persist =
      some gAfterE4 ∧
    (handleMove toyRules allOn (kvOf gInProgress) "p1" "G" e2e4).sent =
      [((if "p1" = gInProgress.player1Id then "p2"
         else gInProgress.player1Id), Frame.moveFrame e2e4)] ∧
    (if "p1" = gInProgress.player1Id then "p2"
     else gInProgress.player1Id) ≠ "p1" :=
  moveForwarded_opponent toyRules allOn (kvOf gInProgress) "p1" "G" e2e4
    gInProgress "p2" "mid" "e4" (by decide) (by decide) (by decide)
    (by decide) (by decide) (by decide) (by decide) (by decide)

/-- C1: every record persisted by the handlers satisfies the two status
invariants: status is waiting exactly when player2Id is absent, and
status is complete exactly when winner is set. -/
theorem statusInvariant (R : Rules) (g : GameState) (h : Reachable R g) :
    (g.status = Status.waiting ↔ g.player2Id = none) ∧
    (g.status = Status.complete ↔ g.winner ≠ none) := by
  induction h with
  | create sockets pid gid now g' hp =>
      simp only [handleCreateGame, Option.some.injEq] at hp
      subst hp
      simp
  | join sockets kv pid gid g g' hkv hg hp ih =>
      simp only [handleJoinGame, hkv] at hp
      split at hp
      · simp at hp
      · rename_i hguard
        push_neg at hguard
        have hw : g.winner = none := by
          by_contra hw
          have hc := ih.2.mpr hw
          rw [hguard.2] at hc
          exact absurd hc (by decide)
        simp only [Option.some.injEq] at hp
        subst hp
        constructor
        · simp
        · simp [hw]
  | move sockets kv pid gid mv g g' hkv hg hp ih =>
      simp only [handleMove, hkv] at hp
      split at hp
      · simp at hp
      · rename_i hguard
        push_neg at hguard
        have hw : g.winner = none := by
          by_contra hw
          have hc := ih.2.mpr hw
          rw [hguard.1] at hc
          exact absurd hc (by decide)
        split at hp
        · simp at hp
        · split at hp
          · simp at hp
          · simp only [Option.some.injEq] at hp
            subst hp
            split
            · constructor
              · simp [hguard.2]
              · simp
            · constructor
              · simp [hguard.1, hguard.2]
              · simp [hguard.1, hw]

theorem statusInvariant_witness :
    (gInProgress.status = Status.waiting ↔ gInProgress.player2Id = none) ∧
    (gInProgress.status = Status.complete ↔ gInProgress.winner ≠ none) :=
  statusInvariant toyRules gInProgress reachable_gInProgress

theorem replay_append (R : Rules) (l : List String) (fen s : String) :
    replay R fen (l ++ [s]) =
      (replay R fen l).bind (fun f => R.moveSan f s) := by
  induction l generalizing fen with
  | nil =>
      cases h : R.moveSan fen s <;> simp [replay, h]
  | cons a t ih =>
      simp only [List.cons_append, replay]
      cases h : R.moveSan fen a
      · simp
      · simp only [Option.some_bind]
        exact ih _

/-- C2: for every record the handlers persist, replaying its move log
from the initial position through the rules adapter reproduces its
stored position, provided the adapter applies algebraic names coherently
with the moves it reports (SanFaithful). -/
theorem moveLog_replays (R : Rules) (hR : SanFaithful R) (g : GameState)
    (h : Reachable R g) :
    replay R R.initialFen g.moves = some g.fen := by
  induction h with
  | create sockets pid gid now g' hp =>
      simp only [handleCreateGame, Option.some.injEq] at hp
      subst hp
      simp [replay]
  | join sockets kv pid gid g g' hkv hg hp ih =>
      simp only [handleJoinGame, hkv] at hp
      split at hp
      · simp at hp
      · simp only [Option.some.injEq] at hp
        subst hp
        simpa using ih
  | move sockets kv pid gid mv g g' hkv hg hp ih =>
      simp only [handleMove, hkv] at hp
      split at hp
      · simp at hp
      · split at hp
        · simp at hp
        · split at hp
          · simp at hp
          · rename_i newFen san hmv
            simp only [Option.some.injEq] at hp
            subst hp
            split
            · simp only
              rw [replay_append, ih, Option.some_bind]
              exact hR _ _ _ _ hmv
            · simp only
              rw [replay_append, ih, Option.some_bind]
              exact hR _ _ _ _ hmv

theorem moveLog_replays_witness :
    replay toyRules toyRules.initialFen gAfterE4.moves =
      some gAfterE4.fen :=
  moveLog_replays toyRules toyRules_sanFaithful gAfterE4 reachable_gAfterE4

/-- C3: an accepted move whose resulting position is terminal closes the
game: the persisted record has status complete and winner equal to
matedWinner (the opposite of the side to move in the terminal position
if checkmate, so the side that delivered mate, else draw), and both
player connections receive a game_over frame with the identical winner
payload when connected. -/
theorem moveTerminal_complete (R : Rules) (sockets : String → Bool)
    (kv : String → Option GameState) (pid gid : String) (mv : MoveFT)
    (g : GameState) (newFen san : String)
    (hkv : kv gid = some g) (hst : g.status = Status.inprogress)
    (hp2 : g.player2Id ≠ none) (hturn : pid = turnPlayer R g)
    (hmv : R.move g.fen mv = some (newFen, san))
    (hover : R.isGameOver newFen = true)
    (hc1 : sockets g.player1Id = true)
    (hc2 : sockets (g.player2Id.getD "") = true) :
    handleMove R sockets kv pid gid mv =
      { persist := some { g with fen := newFen
                                 moves := g.moves ++ [san]
                                 status := Status.complete
                                 winner := some (matedWinner R newFen) }
        sent :=
          [(g.player1Id,
            Frame.gameOver (some (matedWinner R newFen))),
           (g.player2Id.getD "",
            Frame.gameOver (some (matedWinner R newFen)))] } := by
  simp only [handleMove, hkv]
  rw [if_neg (by push_neg; exact ⟨hst, hp2⟩), if_neg (not_not_intro hturn)]
  simp only [hmv, hover, if_true]
  simp [sendTo, hc1, hc2]

theorem moveTerminal_complete_witness :
    handleMove toyRules allOn (kvOf gAfterE4) "p2" "G" qh4Mate =
      { persist := some { gAfterE4 with
          fen := "matepos"
          moves := ["e4", "Qh4#"]
          status := Status.complete
          winner := some (matedWinner toyRules "matepos") }
        sent :=
          [("p1", Frame.gameOver (some (matedWinner toyRules "matepos"))),
           ("p2",
            Frame.gameOver (some (matedWinner toyRules "matepos")))] } :=
  moveTerminal_complete toyRules allOn (kvOf gAfterE4) "p2" "G" qh4Mate
    gAfterE4 "matepos" "Qh4#" (by decide) (by decide) (by decide)
    (by decide) (by decide) (by decide) (by decide) (by decide)
